import Mathlib

/-!
Verification of the InjuryRiskPredictor feature-engineering and scoring core.

This file is a shallow embedding of the Python sources:
  - `src/ml/features.py` (causal metric library, binning),
  - `src/ml/preprocessing.py` (`encode_categorical_features` via label encoding),
  - `backend/app/ml/features.py` (feature assembly and `prepare_features_for_model`),
  - `backend/app/ml/predictor.py` (`InjuryPredictor.predict`, risk tiering,
    recommendations).

Modelling conventions:
  - Python floats are modelled as rationals (ℚ); float square root
    (used inside pandas `.std()`) is an explicit function parameter `sqrtQ`,
    and Python's seed-dependent string `hash` an explicit parameter `pyhash`,
    so every definition is executable and total.
  - A pandas DataFrame of training rows is a list of `Row` plus a flag for
    the presence of the optional `injured` column.
  - Fallible code (the empty-timeline check in `predict`) returns `Except`.
  - `daily_loads` is carried by the API but never read by any metric
    function, so it is not part of the row model.
-/

namespace InjuryRisk

/-- Scalar value of a DataFrame cell in the feature mapping: numeric or
categorical (string). -/
inductive FVal where
  | num (q : ℚ)
  | str (s : String)
deriving DecidableEq, Repr

/-- One row of the training DataFrame: athlete id, week number, weekly load,
and the (optional-column) injury flag. -/
structure Row where
  athlete_id : String
  week : Int
  weekly_load : ℚ
  injured : Bool
deriving DecidableEq, Repr

/-- A pandas DataFrame of training rows; `hasInjured` records whether the
optional `injured` column is present (`'injured' in df.columns`). -/
structure TrainingFrame where
  rows : List Row
  hasInjured : Bool
deriving DecidableEq, Repr

/-- Insertion of a row into a week-sorted list: `a` goes before the first
element whose week is at least `a.week`. Combined with the head-first
recursion of `sortByWeek` this yields a stable sort, matching
`DataFrame.sort_values('week')` (pandas sorts stably here: earlier rows keep
their relative order among equal weeks). -/
def insertRow (a : Row) : List Row → List Row
  | [] => [a]
  | b :: l => if a.week ≤ b.week then a :: b :: l else b :: insertRow a l

/-- Stable sort by week, modelling `df.sort_values('week')`. -/
def sortByWeek : List Row → List Row
  | [] => []
  | a :: l => insertRow a (sortByWeek l)

/-- Insertion of a LAST-arriving row into an already sorted list: `r` stays
behind every element whose week does not exceed `r.week` (stability) and goes
before the first strictly larger one. `sortByWeek (l ++ [r])` equals
`appendSorted r (sortByWeek l)`; this is the shape in which appending a
future-week record to a timeline is analysed. -/
def appendSorted (r : Row) : List Row → List Row
  | [] => [r]
  | b :: l => if b.week ≤ r.week then b :: appendSorted r l else r :: b :: l

/-- The sorted per-athlete view every metric starts from:
`df[df['athlete_id'] == athlete_id].sort_values('week')`. -/
def athleteData (df : TrainingFrame) (aid : String) : List Row :=
  sortByWeek (df.rows.filter (fun r => r.athlete_id == aid))

/-- Position of the first row carrying week `w`, modelling
`athlete_data.index.get_loc(current_idx[0])` (None when the week is absent,
i.e. `len(current_idx) == 0`). -/
def firstIdx (w : Int) : List Row → Option Nat
  | [] => none
  | r :: s => if r.week = w then some 0 else (firstIdx w s).map (· + 1)

/-- Positional slice `iloc[a:b]`. -/
def slice (s : List Row) (a b : Nat) : List Row :=
  (s.take b).drop a

/-- The `weekly_load` column of a row list. -/
def loads (s : List Row) : List ℚ :=
  s.map (fun r => r.weekly_load)

/-- Mean of a list of rationals (`Series.mean`); 0 on the empty list, which
every caller guards against exactly as the Python does. -/
def listMean (xs : List ℚ) : ℚ :=
  xs.sum / (xs.length : ℚ)

/-- Sample variance with `ddof = 1`, the square of pandas `Series.std()`. -/
def sampleVar (xs : List ℚ) : ℚ :=
  ((xs.map (fun x => (x - listMean xs) ^ 2)).sum) / ((xs.length - 1 : ℕ) : ℚ)

/-- Ascending insertion of a rational, used by `median`. -/
def insQ (x : ℚ) : List ℚ → List ℚ
  | [] => [x]
  | y :: ys => if x ≤ y then x :: y :: ys else y :: insQ x ys

/-- Ascending sort of rationals. -/
def sortQ : List ℚ → List ℚ
  | [] => []
  | x :: xs => insQ x (sortQ xs)

/-- Median as pandas computes it: middle of the sorted values, or the mean of
the two middle values for even length. -/
def median (xs : List ℚ) : ℚ :=
  let s := sortQ xs
  let n := s.length
  if n % 2 = 1 then s.getD (n / 2) 0
  else (s.getD (n / 2 - 1) 0 + s.getD (n / 2) 0) / 2

/-- Slope of the least-squares line through `(0, ys[0]), (1, ys[1]), …`,
the closed form of `LinearRegression().fit(...).coef_[0]` in
`calculate_acwr_trend`. -/
def lstsqSlope (ys : List ℚ) : ℚ :=
  let n : ℚ := (ys.length : ℚ)
  let xs : List ℚ := (List.range ys.length).map (fun k => (k : ℚ))
  let xbar := xs.sum / n
  let ybar := ys.sum / n
  let sxy := ((xs.zip ys).map (fun p => (p.1 - xbar) * (p.2 - ybar))).sum
  let sxx := (xs.map (fun x => (x - xbar) ^ 2)).sum
  sxy / sxx

/-- `calculate_acute_load`: the week-`w` row's load, 0.0 when the week is
absent. -/
def calculate_acute_load (df : TrainingFrame) (aid : String) (w : Int) : ℚ :=
  match (athleteData df aid).filter (fun r => r.week == w) with
  | [] => 0
  | r :: _ => r.weekly_load

/-- `calculate_chronic_load`: mean load over `iloc[max(0, pos-window+1) : pos+1]`
of the sorted athlete data; 0.0 when week `w` is absent. -/
def calculate_chronic_load (df : TrainingFrame) (aid : String) (w : Int)
    (window : Nat := 4) : ℚ :=
  let ad := athleteData df aid
  match firstIdx w ad with
  | none => 0
  | some i =>
    let wd := slice ad (i + 1 - window) (i + 1)
    if wd.length = 0 then 0 else listMean (loads wd)

/-- `calculate_acwr`: acute over chronic, 0.0 when the chronic load is 0. -/
def calculate_acwr (df : TrainingFrame) (aid : String) (w : Int) : ℚ :=
  let acute := calculate_acute_load df aid w
  let chronic := calculate_chronic_load df aid w
  if chronic = 0 then 0 else acute / chronic

/-- The trailing load window `iloc[max(0, pos-window+1) : pos+1]` that
`calculate_monotony` works on; empty when week `w` is absent (in which case
the Python returns its default 1.0 before building a window). -/
def monotonyWindow (df : TrainingFrame) (aid : String) (w : Int)
    (window : Nat := 4) : List ℚ :=
  let ad := athleteData df aid
  match firstIdx w ad with
  | none => []
  | some i => loads (slice ad (i + 1 - window) (i + 1))

/-- `calculate_monotony`: mean/std of the trailing window; 1.0 when the week
is absent (empty window), when the window holds fewer than 2 samples, or when
the standard deviation is 0. `sqrtQ` abstracts the float square root inside
pandas `.std()`. -/
def calculate_monotony (sqrtQ : ℚ → ℚ) (df : TrainingFrame) (aid : String)
    (w : Int) (window : Nat := 4) : ℚ :=
  let wd := monotonyWindow df aid w window
  if wd.length < 2 then 1
  else
    let sd := sqrtQ (sampleVar wd)
    if sd = 0 then 1 else listMean wd / sd

/-- `calculate_strain`: weekly load times monotony; 0.0 when the week is
absent. -/
def calculate_strain (sqrtQ : ℚ → ℚ) (df : TrainingFrame) (aid : String)
    (w : Int) : ℚ :=
  match (athleteData df aid).filter (fun r => r.week == w) with
  | [] => 0
  | r :: _ => r.weekly_load * calculate_monotony sqrtQ df aid w

/-- `calculate_week_over_week_change`: percentage change from week `w-1` to
week `w` (times 100); 0.0 when week `w` or week `w-1` is absent or the
previous load is 0. -/
def calculate_week_over_week_change (df : TrainingFrame) (aid : String)
    (w : Int) : ℚ :=
  let ad := athleteData df aid
  match ad.filter (fun r => r.week == w) with
  | [] => 0
  | r :: _ =>
    match ad.filter (fun r => r.week == w - 1) with
    | [] => 0
    | p :: _ =>
      if p.weekly_load = 0 then 0
      else (r.weekly_load - p.weekly_load) / p.weekly_load * 100

/-- `calculate_acwr_trend`: least-squares slope of the ACWR values of the
trailing window (default 2); 0.0 when the week is absent or fewer than 2
points exist. -/
def calculate_acwr_trend (df : TrainingFrame) (aid : String) (w : Int)
    (window : Nat := 2) : ℚ :=
  let ad := athleteData df aid
  match firstIdx w ad with
  | none => 0
  | some i =>
    let wd := slice ad (i + 1 - window) (i + 1)
    if wd.length < 2 then 0
    else
      let ys := wd.map (fun r => calculate_acwr df aid r.week)
      if ys.length < 2 then 0 else lstsqSlope ys

/-- One probe of the backward scan in `calculate_weeks_above_threshold`:
does the row at position `i` have ACWR above the threshold? -/
def watCond (df : TrainingFrame) (aid : String) (thr : ℚ) (ad : List Row)
    (i : Nat) : Bool :=
  match ad.get? i with
  | some r => decide (calculate_acwr df aid r.week > thr)
  | none => false

/-- The backward loop `for i in range(current_pos, -1, -1)` counting
consecutive positions whose ACWR exceeds the threshold, breaking at the
first that does not. -/
def countFrom (df : TrainingFrame) (aid : String) (thr : ℚ) (ad : List Row) :
    Nat → Nat
  | 0 => if watCond df aid thr ad 0 then 1 else 0
  | j + 1 => if watCond df aid thr ad (j + 1) then 1 + countFrom df aid thr ad j else 0

/-- `calculate_weeks_above_threshold`: consecutive weeks ending at `w`
(scanning backward) with ACWR above the threshold; 0 when the week is
absent. -/
def calculate_weeks_above_threshold (df : TrainingFrame) (aid : String)
    (w : Int) (thr : ℚ := 13 / 10) : Nat :=
  let ad := athleteData df aid
  match firstIdx w ad with
  | none => 0
  | some i => countFrom df aid thr ad i

/-- `calculate_distance_from_baseline`: percentage difference between the
week-`w` load and the median of `iloc[max(0, pos-baseline_window) : pos]`;
0.0 when the week is absent, no history precedes it, or the baseline is 0. -/
def calculate_distance_from_baseline (df : TrainingFrame) (aid : String)
    (w : Int) (bw : Nat := 12) : ℚ :=
  let ad := athleteData df aid
  match ad.filter (fun r => r.week == w) with
  | [] => 0
  | r :: _ =>
    match firstIdx w ad with
    | none => 0
    | some i =>
      let base := loads (slice ad (i - bw) i)
      if base.length = 0 then 0
      else
        let b := median base
        if b = 0 then 0 else (r.weekly_load - b) / b * 100

/-- `calculate_lag_features`: ACWR `lag` weeks back, 0.0 when the lagged week
number falls below 1. -/
def calculate_lag_features (df : TrainingFrame) (aid : String) (w : Int)
    (lag : Int := 1) : ℚ :=
  if w - lag < 1 then 0 else calculate_acwr df aid (w - lag)

/-- `calculate_recent_injury`: 1 when some row in `iloc[max(0, pos-window) : pos]`
(strictly before week `w`) is injury-flagged and the `injured` column exists,
else 0; 0 when the week is absent or no history precedes it. -/
def calculate_recent_injury (df : TrainingFrame) (aid : String) (w : Int)
    (window : Nat := 8) : Nat :=
  let ad := athleteData df aid
  match firstIdx w ad with
  | none => 0
  | some i =>
    let wd := slice ad (i - window) i
    if wd.length = 0 then 0
    else if df.hasInjured then (if wd.any (fun r => r.injured) then 1 else 0)
    else 0

/-- `bin_age`: age-group bucketization. -/
def bin_age (age : Int) : String :=
  if age < 26 then "young_adult"
  else if age < 36 then "adult"
  else if age < 46 then "masters"
  else "senior"

/-- `bin_experience`: experience-level bucketization. -/
def bin_experience (years : Int) : String :=
  if years < 3 then "novice"
  else if years < 6 then "intermediate"
  else if years < 10 then "advanced"
  else "expert"

/-- A training week as the API receives it (`daily_loads` is carried by the
request but read by no metric function, so it is omitted). -/
structure TrainingWeekIn where
  week : Int
  weekly_load : ℚ
deriving DecidableEq, Repr

/-- The athlete profile dictionary of the API. -/
structure AthleteProfile where
  age : Int
  experience_years : Int
  baseline_weekly_load : ℚ
deriving DecidableEq, Repr

/-- The single-athlete DataFrame `predict` builds from the request history:
athlete id `"API_USER"`, no `injured` column. -/
def apiFrame (hist : List TrainingWeekIn) : TrainingFrame :=
  { rows := hist.map (fun t =>
      { athlete_id := "API_USER", week := t.week,
        weekly_load := t.weekly_load, injured := false }),
    hasInjured := false }

/-- `calculate_features_for_prediction`: the ordered feature dictionary of
exactly 17 names built for one athlete/week. Insertion order matches the
Python dict. -/
def calculate_features_for_prediction (sqrtQ : ℚ → ℚ)
    (hist : List TrainingWeekIn) (prof : AthleteProfile) (w : Int) :
    List (String × FVal) :=
  let df := apiFrame hist
  let aid := "API_USER"
  [("acute_load", .num (calculate_acute_load df aid w)),
   ("chronic_load", .num (calculate_chronic_load df aid w)),
   ("acwr", .num (calculate_acwr df aid w)),
   ("monotony", .num (calculate_monotony sqrtQ df aid w)),
   ("strain", .num (calculate_strain sqrtQ df aid w)),
   ("week_over_week_change", .num (calculate_week_over_week_change df aid w)),
   ("acwr_trend", .num (calculate_acwr_trend df aid w)),
   ("weeks_above_threshold", .num ((calculate_weeks_above_threshold df aid w : ℕ) : ℚ)),
   ("distance_from_baseline", .num (calculate_distance_from_baseline df aid w)),
   ("previous_week_acwr", .num (calculate_lag_features df aid w 1)),
   ("two_weeks_ago_acwr", .num (calculate_lag_features df aid w 2)),
   ("recent_injury", .num ((calculate_recent_injury df aid w : ℕ) : ℚ)),
   ("age", .num (prof.age : ℚ)),
   ("age_group", .str (bin_age prof.age)),
   ("experience_years", .num (prof.experience_years : ℚ)),
   ("experience_level", .str (bin_experience prof.experience_years)),
   ("baseline_weekly_miles", .num prof.baseline_weekly_load)]

/-- Dictionary lookup by feature name (`features[name]` / `name in features`). -/
def fvLookup (fs : List (String × FVal)) (n : String) : Option FVal :=
  (fs.find? (fun p => p.1 == n)).map (fun p => p.2)

/-- `features.get(name, 0.0)` as the recommendation rules read it: the stored
numeric value, or the 0.0 default when the name is absent. (A string value
never reaches these reads; 0 there keeps the function total.) -/
def featNum (fs : List (String × FVal)) (n : String) : ℚ :=
  match fvLookup fs n with
  | some (.num q) => q
  | _ => 0

/-- Suffix test `name.endswith(suffix)`, stated on the character lists so it
stays reducible. -/
def strEndsWith (s suf : String) : Bool :=
  suf.data.isSuffixOf s.data

/-- `prepare_features_for_model`: for each name of `feature_order`, the
stored numeric value; a string value hashes (`hash(value) % 1000`, with
`pyhash` abstracting Python's seed-dependent string hash) when the name ends
in `_group` or `_level` and becomes 0 otherwise; an absent name becomes 0.0.
The Python wraps the list in a 1×n numpy array; the list of entries is
modelled. -/
def prepare_features_for_model (pyhash : String → Int)
    (fs : List (String × FVal)) (order : List String) : List ℚ :=
  order.map (fun name =>
    match fvLookup fs name with
    | some (.num q) => q
    | some (.str s) =>
        if strEndsWith name "_group" || strEndsWith name "_level" then
          ((pyhash s % 1000 : Int) : ℚ)
        else 0
    | none => 0)

/-- Column names `encode_categorical_features` excludes from auto-detection. -/
def catExclude : List String := ["athlete_id", "injured", "injury_type"]

/-- Sorted insertion without duplicates, for `dedupSortStr`. -/
def insStr (x : String) : List String → List String
  | [] => [x]
  | y :: ys =>
    if x = y then y :: ys
    else if x < y then x :: y :: ys
    else y :: insStr x ys

/-- Sorted deduplication, modelling the `numpy.unique` call that builds
`LabelEncoder.classes_`. -/
def dedupSortStr (xs : List String) : List String :=
  xs.foldr insStr []

/-- `LabelEncoder().fit_transform(column)`: each label becomes its index in
the sorted unique class list. -/
def labelCodes (xs : List String) : List Nat :=
  xs.map (fun x => (dedupSortStr xs).indexOf x)

/-- `encode_categorical_features` applied to the one-row DataFrame `predict`
builds from the feature dictionary: every auto-detected categorical column
(string-valued, name not excluded) is replaced by the code a freshly fit
`LabelEncoder` assigns to its one-element column. -/
def encodeCatRow (fs : List (String × FVal)) : List (String × FVal) :=
  fs.map (fun nv =>
    match nv.2 with
    | .str s =>
        if nv.1 ∈ catExclude then nv
        else (nv.1, .num (((labelCodes [s]).headD 0 : ℕ) : ℚ))
    | .num _ => nv)

/-- The reorder loop of `predict` (lines 140–145): for each name of the
feature order, `float(feature_df_encoded[name].iloc[0])` when the column
exists, else 0.0. A remaining string column would make `float` raise; on the
serving features none remains (every string column was just label-encoded),
and 0 keeps the model total. -/
def servingEncode (fs : List (String × FVal)) (order : List String) : List ℚ :=
  let enc := encodeCatRow fs
  order.map (fun name =>
    match fvLookup enc name with
    | some (.num q) => q
    | some (.str _) => 0
    | none => 0)

/-- Risk tier of `_get_risk_level`. -/
inductive RiskLevel where
  | LOW
  | MODERATE
  | HIGH
deriving DecidableEq, Repr

/-- `_get_risk_level`: LOW below 0.3, MODERATE below 0.6, else HIGH. -/
def get_risk_level (p : ℚ) : RiskLevel :=
  if p < 3 / 10 then .LOW
  else if p < 6 / 10 then .MODERATE
  else .HIGH

/-- Tags for the fixed recommendation messages of
`_generate_recommendations`, abstracting the message text. -/
inductive RecTag where
  | acwrHigh
  | acwrElevated
  | acwrLow
  | acwrOptimal
  | wowLarge
  | wowModerate
  | monotonyHigh
  | strainHigh
  | riskLow
  | riskHigh
deriving DecidableEq, Repr

/-- `_generate_recommendations`: the rule groups evaluated in order, every
applicable rule firing. The week-over-week thresholds are written 0.2 and
0.15 in the source and are compared against the percentage-valued feature. -/
def generate_recommendations (fs : List (String × FVal)) (risk : ℚ) :
    List RecTag :=
  let acwr := featNum fs "acwr"
  let monotony := featNum fs "monotony"
  let week_change := featNum fs "week_over_week_change"
  let strain := featNum fs "strain"
  (if acwr > 3 / 2 then [.acwrHigh]
   else if acwr > 13 / 10 then [.acwrElevated]
   else if acwr < 4 / 5 then [.acwrLow]
   else [.acwrOptimal])
  ++ (if week_change > 2 / 10 then [.wowLarge]
      else if week_change > 15 / 100 then [.wowModerate]
      else [])
  ++ (if monotony > 2 then [.monotonyHigh] else [])
  ++ (if strain > 150 then [.strainHigh] else [])
  ++ (if risk < 3 / 10 then [.riskLow]
      else if risk > 7 / 10 then [.riskHigh]
      else [])

/-- The loaded classifier as `predict` probes it: an optional
positive-class-probability capability (`predict_proba` present) and the raw
`predict` output. -/
structure Classifier where
  proba : Option (List ℚ → ℚ)
  predictRaw : List ℚ → ℚ

/-- The risk score of `predict` (lines 153–158): the positive-class
probability when `predict_proba` exists, else `float(model.predict(...)[0])`
with no further coercion. -/
def riskScore (c : Classifier) (v : List ℚ) : ℚ :=
  match c.proba with
  | some f => f v
  | none => c.predictRaw v

/-- The one failure `predict` raises itself: the empty-timeline
`ValueError("Training history cannot be empty")` (the spec's
`ValidationError`). -/
inductive PredError where
  | emptyTimeline
deriving DecidableEq, Repr

/-- The result dictionary of `predict` (the optional feature-contribution
entry, which no claim touches, is outside the modelled fragment). -/
structure PredictionResult where
  risk_level : RiskLevel
  risk_score : ℚ
  acwr : ℚ
  monotony : ℚ
  strain : ℚ
  week_over_week_change : ℚ
  recommendations : List RecTag
deriving DecidableEq, Repr

/-- `max(week['week'] for week in training_history)` on a nonempty history. -/
def maxWeek (hist : List TrainingWeekIn) : Int :=
  match hist with
  | [] => 0
  | t :: ts => ts.foldl (fun m r => max m r.week) t.week

/-- The body of `predict` after the emptiness check, at target week `w`:
assemble features, run the dead `prepare_features_for_model` call, label-encode
the one-row frame and reorder, scale, score, tier, recommend. -/
def predictAt (sqrtQ : ℚ → ℚ) (pyhash : String → Int)
    (scaler : List ℚ → List ℚ) (c : Classifier)
    (hist : List TrainingWeekIn) (prof : AthleteProfile)
    (order : List String) (w : Int) : PredictionResult :=
  let features := calculate_features_for_prediction sqrtQ hist prof w
  let _fv := prepare_features_for_model pyhash features order
  let arr := servingEncode features order
  let scaled := scaler arr
  let risk := riskScore c scaled
  { risk_level := get_risk_level risk
    risk_score := risk
    acwr := featNum features "acwr"
    monotony := featNum features "monotony"
    strain := featNum features "strain"
    week_over_week_change := featNum features "week_over_week_change"
    recommendations := generate_recommendations features risk }

/-- `InjuryPredictor.predict`: rejects an empty history, otherwise scores at
the maximum week of the history. -/
def predictM (sqrtQ : ℚ → ℚ) (pyhash : String → Int)
    (scaler : List ℚ → List ℚ) (c : Classifier)
    (hist : List TrainingWeekIn) (prof : AthleteProfile)
    (order : List String) : Except PredError PredictionResult :=
  if hist = [] then .error .emptyTimeline
  else .ok (predictAt sqrtQ pyhash scaler c hist prof order (maxWeek hist))

/-- The hardcoded fallback feature order of `_determine_feature_order`. -/
def defaultFeatureOrder : List String :=
  ["acute_load", "chronic_load", "acwr", "monotony", "strain",
   "week_over_week_change", "acwr_trend", "weeks_above_threshold",
   "distance_from_baseline", "previous_week_acwr", "two_weeks_ago_acwr",
   "recent_injury", "age", "age_group", "experience_years",
   "experience_level", "baseline_weekly_miles"]

/-- A classifier without `predict_proba` whose raw prediction is the
constant 2 (e.g. a regressor pickled in place of a classifier). -/
def probalessClassifier : Classifier :=
  { proba := none, predictRaw := fun _ => 2 }

/-- A capability-free classifier scoring 0, used to instantiate universally
quantified statements at a concrete input. -/
def zeroClassifier : Classifier :=
  { proba := none, predictRaw := fun _ => 0 }

lemma foldlMax_le_init (ts : List TrainingWeekIn) (a : Int) :
    a ≤ ts.foldl (fun m r => max m r.week) a := by
  induction ts generalizing a with
  | nil => exact le_refl a
  | cons b ts ih =>
    calc a ≤ max a b.week := le_max_left _ _
    _ ≤ ts.foldl (fun m r => max m r.week) (max a b.week) := ih _

lemma foldlMax_ub (ts : List TrainingWeekIn) (a : Int) :
    ∀ t ∈ ts, t.week ≤ ts.foldl (fun m r => max m r.week) a := by
  induction ts generalizing a with
  | nil => intro t ht; cases ht
  | cons b ts ih =>
    intro t ht
    rcases List.mem_cons.mp ht with h | h
    · subst h
      calc t.week ≤ max a t.week := le_max_right _ _
      _ ≤ ts.foldl (fun m r => max m r.week) (max a t.week) := foldlMax_le_init _ _
    · exact ih _ t h

lemma foldlMax_mem (ts : List TrainingWeekIn) (a : Int) :
    ts.foldl (fun m r => max m r.week) a = a ∨
      (ts.foldl (fun m r => max m r.week) a) ∈ ts.map (fun t => t.week) := by
  induction ts generalizing a with
  | nil => exact Or.inl rfl
  | cons b ts ih =>
    rcases ih (max a b.week) with h | h
    · rcases max_choice a b.week with hm | hm
      · exact Or.inl (by simpa [hm] using h)
      · refine Or.inr ?_
        simp only [List.foldl_cons, List.map_cons, List.mem_cons]
        exact Or.inl (by rw [h, hm])
    · exact Or.inr (by simpa using Or.inr h)

lemma maxWeek_mem (hist : List TrainingWeekIn) (h : hist ≠ []) :
    maxWeek hist ∈ hist.map (fun t => t.week) := by
  match hist with
  | [] => exact absurd rfl h
  | t :: ts =>
    rcases foldlMax_mem ts t.week with hm | hm
    · simp [maxWeek, hm]
    · simp only [maxWeek, List.map_cons, List.mem_cons]
      exact Or.inr hm

lemma maxWeek_ub (hist : List TrainingWeekIn) :
    ∀ t ∈ hist, t.week ≤ maxWeek hist := by
  match hist with
  | [] => intro t ht; cases ht
  | t :: ts =>
    intro u hu
    rcases List.mem_cons.mp hu with h | h
    · subst h; exact foldlMax_le_init ts u.week
    · exact foldlMax_ub ts t.week u h

/-- C3: encoding the assembler's feature vector with any feature order yields
an array of exactly `len(order)` entries; the embedding is total, so no
data-shape exception can arise for missing names or unseen categories. -/
theorem C3_encode_length (sqrtQ : ℚ → ℚ) (pyhash : String → Int)
    (hist : List TrainingWeekIn) (prof : AthleteProfile) (w : Int)
    (order : List String) :
    (prepare_features_for_model pyhash
        (calculate_features_for_prediction sqrtQ hist prof w) order).length =
      order.length := by
  simp [prepare_features_for_model]

/-- C5: risk tiering is a pure step function of the risk score with cutoffs
0.3 and 0.6, boundary values mapping upward. -/
theorem C5_risk_tier_step (r : ℚ) :
    (get_risk_level r = .LOW ↔ r < 3 / 10) ∧
    (get_risk_level r = .MODERATE ↔ 3 / 10 ≤ r ∧ r < 6 / 10) ∧
    (get_risk_level r = .HIGH ↔ 6 / 10 ≤ r) ∧
    get_risk_level (3 / 10) = .MODERATE ∧ get_risk_level (6 / 10) = .HIGH := by
  have key : ∀ s : ℚ, (get_risk_level s = .LOW ↔ s < 3 / 10) ∧
      (get_risk_level s = .MODERATE ↔ 3 / 10 ≤ s ∧ s < 6 / 10) ∧
      (get_risk_level s = .HIGH ↔ 6 / 10 ≤ s) := by
    intro s
    rcases lt_or_le s (3 / 10) with h1 | h1
    · have h2 : s < 6 / 10 := lt_trans h1 (by norm_num)
      simp [get_risk_level, h1, h2, not_le.mpr h1, not_le.mpr h2]
    · rcases lt_or_le s (6 / 10) with h2 | h2
      · simp [get_risk_level, h1, h2, not_lt.mpr h1, not_le.mpr h2]
      · have h3 : ¬ s < 6 / 10 := not_lt.mpr h2
        have h4 : ¬ s < 3 / 10 :=
          not_lt.mpr (le_trans (by norm_num) h2)
        simp [get_risk_level, h1, h2, h3, h4]
  refine ⟨(key r).1, (key r).2.1, (key r).2.2, ?_, ?_⟩
  · exact (key (3 / 10)).2.1.mpr ⟨le_refl _, by norm_num⟩
  · exact (key (6 / 10)).2.2.mpr (le_refl _)

/-- C7 (amended): the risk score is the classifier's positive-class
probability when `predict_proba` exists (hence in [0,1] whenever that
probability is), and otherwise the raw prediction unchanged — no coercion
into [0,1] is applied. -/
theorem C7_risk_score_source (c : Classifier) (v : List ℚ) :
    (c.proba = none → riskScore c v = c.predictRaw v) ∧
    (∀ f, c.proba = some f → riskScore c v = f v) ∧
    (∀ f, c.proba = some f → 0 ≤ f v → f v ≤ 1 →
      0 ≤ riskScore c v ∧ riskScore c v ≤ 1) := by
  refine ⟨fun h => ?_, fun f h => ?_, fun f h h0 h1 => ?_⟩ <;>
    simp [riskScore, h]
  exact ⟨h0, h1⟩

/-- C7 witness: the amended characterization applied to a concrete
probability-capable classifier. -/
theorem C7_risk_score_source_witness :
    riskScore { proba := some (fun _ => 1 / 2), predictRaw := fun _ => 0 } [] = 1 / 2 :=
  (C7_risk_score_source { proba := some (fun _ => 1 / 2), predictRaw := fun _ => 0 } []).2.1
    (fun _ => 1 / 2) rfl

/-- C7 counterexample: a loaded model without `predict_proba` whose raw
prediction is 2 makes `predict` return risk score 2, outside [0,1]; the code
applies no coercion to the fallback prediction. -/
theorem C7_counterexample_risk_score_above_one :
    (predictM id (fun _ => 0) id probalessClassifier [⟨1, 100⟩] ⟨30, 5, 25⟩
        defaultFeatureOrder).map (fun res => res.risk_score) = .ok 2 ∧
      ¬ ((2 : ℚ) ≤ 1) := by
  constructor
  · simp [predictM, predictAt, riskScore, probalessClassifier, Except.map]
  · norm_num

/-- C8: division guards of the metric library: zero chronic load forces
ACWR to exactly 0.0, and a monotony window with fewer than 2 samples or zero
variance (zero standard deviation, for any square root with `sqrt 0 = 0`)
forces monotony to exactly 1.0. The embedding is total, so neither raises. -/
theorem C8_zero_division_guards (sqrtQ : ℚ → ℚ) (df : TrainingFrame)
    (aid : String) (w : Int) (hs : sqrtQ 0 = 0) :
    (calculate_chronic_load df aid w = 0 → calculate_acwr df aid w = 0) ∧
    ((monotonyWindow df aid w).length < 2 → calculate_monotony sqrtQ df aid w = 1) ∧
    (sampleVar (monotonyWindow df aid w) = 0 → calculate_monotony sqrtQ df aid w = 1) := by
  refine ⟨fun h => ?_, fun h => ?_, fun h => ?_⟩
  · simp [calculate_acwr, h]
  · simp [calculate_monotony, h]
  · by_cases hlen : (monotonyWindow df aid w).length < 2
    · simp [calculate_monotony, hlen]
    · simp [calculate_monotony, hlen, h, hs]

/-- C8 witness: the guards evaluated on the empty frame. -/
theorem C8_zero_division_guards_witness :
    calculate_acwr ⟨[], false⟩ "A" 1 = 0 ∧
      calculate_monotony id ⟨[], false⟩ "A" 1 = 1 := by
  have h := C8_zero_division_guards id ⟨[], false⟩ "A" 1 rfl
  exact ⟨h.1 rfl, h.2.1 (by simp [monotonyWindow, athleteData, sortByWeek, firstIdx])⟩

/-- C9: `predict` fails (with the empty-timeline `ValidationError`) exactly
on the empty history; on a nonempty history it scores at the maximum week
present, which belongs to the history and dominates every week in it. -/
theorem C9_empty_timeline_validation (sqrtQ : ℚ → ℚ) (pyhash : String → Int)
    (scaler : List ℚ → List ℚ) (c : Classifier) (hist : List TrainingWeekIn)
    (prof : AthleteProfile) (order : List String) :
    (predictM sqrtQ pyhash scaler c hist prof order = .error .emptyTimeline ↔
      hist = []) ∧
    (hist ≠ [] →
      predictM sqrtQ pyhash scaler c hist prof order =
          .ok (predictAt sqrtQ pyhash scaler c hist prof order (maxWeek hist)) ∧
        maxWeek hist ∈ hist.map (fun t => t.week) ∧
        ∀ t ∈ hist, t.week ≤ maxWeek hist) := by
  constructor
  · constructor
    · intro h
      by_contra hne
      simp [predictM, hne] at h
    · intro h; simp [predictM, h]
  · intro hne
    exact ⟨by simp [predictM, hne], maxWeek_mem hist hne, maxWeek_ub hist⟩

/-- C9 witness: the characterization applied to a concrete one-week history. -/
theorem C9_empty_timeline_validation_witness :
    predictM id (fun _ => 0) id zeroClassifier [⟨1, 100⟩] ⟨30, 5, 25⟩
        defaultFeatureOrder ≠ .error .emptyTimeline ∧
      maxWeek [⟨1, 100⟩] ∈ ([⟨1, 100⟩] : List TrainingWeekIn).map (fun t => t.week) := by
  have h := C9_empty_timeline_validation id (fun _ => 0) id zeroClassifier
    [⟨1, 100⟩] ⟨30, 5, 25⟩ defaultFeatureOrder
  refine ⟨fun he => ?_, (h.2 (by simp)).2.1⟩
  exact absurd (h.1.mp he) (by simp)

lemma labelCodes_singleton (s : String) : labelCodes [s] = [0] := by
  simp [labelCodes, dedupSortStr, insStr, List.indexOf, List.findIdx, List.findIdx.go]

lemma fvLookup_encodeCat_age_group (sqrtQ : ℚ → ℚ) (hist : List TrainingWeekIn)
    (prof : AthleteProfile) (w : Int) :
    fvLookup (encodeCatRow (calculate_features_for_prediction sqrtQ hist prof w))
      "age_group" = some (.num 0) := by
  simp [fvLookup, encodeCatRow, calculate_features_for_prediction, catExclude, List.find?,
    labelCodes, dedupSortStr, insStr, List.indexOf, List.findIdx, List.findIdx.go]

lemma fvLookup_encodeCat_experience_level (sqrtQ : ℚ → ℚ)
    (hist : List TrainingWeekIn) (prof : AthleteProfile) (w : Int) :
    fvLookup (encodeCatRow (calculate_features_for_prediction sqrtQ hist prof w))
      "experience_level" = some (.num 0) := by
  simp [fvLookup, encodeCatRow, calculate_features_for_prediction, catExclude, List.find?,
    labelCodes, dedupSortStr, insStr, List.indexOf, List.findIdx, List.findIdx.go]

/-- C10: the serving path label-encodes the one-row request frame with a
freshly fit encoder, and fitting on a one-element column always assigns
code 0, so every `age_group` / `experience_level` entry of the array handed
to the scaler and classifier is 0 whatever the athlete's category. -/
theorem C10_singleton_refit_encodes_zero (sqrtQ : ℚ → ℚ)
    (hist : List TrainingWeekIn) (prof : AthleteProfile) (w : Int)
    (order : List String) (i : Nat)
    (hi : order.get? i = some "age_group" ∨ order.get? i = some "experience_level") :
    (servingEncode (calculate_features_for_prediction sqrtQ hist prof w)
        order).get? i = some 0 := by
  rcases hi with h | h <;> rw [List.get?_eq_getElem?] at h
  · simp [servingEncode, List.get?_eq_getElem?, List.getElem?_map, h,
      fvLookup_encodeCat_age_group sqrtQ hist prof w]
  · simp [servingEncode, List.get?_eq_getElem?, List.getElem?_map, h,
      fvLookup_encodeCat_experience_level sqrtQ hist prof w]

/-- C10 witness: a masters/expert athlete's categoricals still encode to 0. -/
theorem C10_singleton_refit_encodes_zero_witness :
    (servingEncode (calculate_features_for_prediction id [⟨1, 100⟩] ⟨40, 12, 25⟩ 1)
        ["age_group", "experience_level"]).get? 0 = some 0 ∧
    (servingEncode (calculate_features_for_prediction id [⟨1, 100⟩] ⟨40, 12, 25⟩ 1)
        ["age_group", "experience_level"]).get? 1 = some 0 :=
  ⟨C10_singleton_refit_encodes_zero id [⟨1, 100⟩] ⟨40, 12, 25⟩ 1
      ["age_group", "experience_level"] 0 (Or.inl rfl),
   C10_singleton_refit_encodes_zero id [⟨1, 100⟩] ⟨40, 12, 25⟩ 1
      ["age_group", "experience_level"] 1 (Or.inr rfl)⟩

/-- C1: at a concrete request (age 40 → `masters`, 12 years → `expert`) the
serving path encodes both categoricals to 0, while a label encoder fit on a
training column holding all four labels assigns `masters` code 1 (position in
the alphabetically sorted classes `[adult, masters, senior, young_adult]`)
and `expert` code 1 (classes `[advanced, expert, intermediate, novice]`):
the serving-time code differs from the persisted training-time code because
`predict` re-fits an encoder on the incoming sample. -/
theorem C1_refit_code_differs_from_training_code :
    servingEncode (calculate_features_for_prediction id [⟨1, 100⟩] ⟨40, 12, 25⟩ 1)
        ["age_group", "experience_level"] = [0, 0] ∧
    bin_age 40 = "masters" ∧ bin_experience 12 = "expert" ∧
    labelCodes ["young_adult", "adult", "masters", "senior"] = [3, 0, 1, 2] ∧
    labelCodes ["novice", "intermediate", "advanced", "expert"] = [3, 2, 0, 1] ∧
    (0 : ℚ) ≠ 1 := by
  refine ⟨?_, by norm_num [bin_age], by norm_num [bin_experience], ?_, ?_, by norm_num⟩
  · have h0 := fvLookup_encodeCat_age_group id [⟨1, 100⟩] ⟨40, 12, 25⟩ 1
    have h1 := fvLookup_encodeCat_experience_level id [⟨1, 100⟩] ⟨40, 12, 25⟩ 1
    simp [servingEncode, h0, h1]
  · simp +decide [labelCodes, dedupSortStr, insStr, List.indexOf]
  · simp +decide [labelCodes, dedupSortStr, insStr, List.indexOf]

/-- C2: `prepare_features_for_model` does not map an unseen categorical
value to the sentinel 0: a name ending in `_group`/`_level` with a string
value is hash-encoded (`hash(value) % 1000`; here a hash function assigning
7 exhibits a nonzero code), while an absent name does default to 0.0. No
training-time category map is consulted — the function takes none. -/
theorem C2_unseen_category_is_hashed_not_zero :
    prepare_features_for_model (fun _ => 7)
        [("age_group", .str "adult")] ["age_group", "other_feature"] = [7, 0] ∧
      (7 : ℚ) ≠ 0 := by
  constructor
  · simp +decide [prepare_features_for_model, fvLookup, List.find?, strEndsWith]
  · norm_num

/-- C6: the week-over-week rules compare the percentage-valued feature
against the fractional thresholds 0.2 / 0.15: a 10% rise (loads 100 → 110,
`week_over_week_change = 10`) already fires the large-increase
recommendation, although 10 does not exceed 20 (%). -/
theorem C6_large_increase_fires_at_ten_percent :
    featNum (calculate_features_for_prediction id [⟨1, 100⟩, ⟨2, 110⟩] ⟨30, 5, 25⟩ 2)
        "week_over_week_change" = 10 ∧
    RecTag.wowLarge ∈ generate_recommendations
        (calculate_features_for_prediction id [⟨1, 100⟩, ⟨2, 110⟩] ⟨30, 5, 25⟩ 2)
        (1 / 2) ∧
    ¬ ((10 : ℚ) > 20) := by
  refine ⟨?_, ?_, by norm_num⟩
  · simp [calculate_features_for_prediction, featNum, fvLookup,
      List.find?, calculate_week_over_week_change,
      athleteData, apiFrame, sortByWeek, insertRow, firstIdx, slice, loads, listMean]
    norm_num
  · simp [generate_recommendations, calculate_features_for_prediction, featNum, fvLookup,
      List.find?, calculate_acute_load, calculate_chronic_load, calculate_acwr,
      calculate_monotony, monotonyWindow, sampleVar, calculate_strain,
      calculate_week_over_week_change, calculate_acwr_trend,
      calculate_weeks_above_threshold, countFrom, watCond,
      calculate_distance_from_baseline, calculate_lag_features, calculate_recent_injury,
      athleteData, apiFrame, sortByWeek, insertRow, firstIdx, slice, loads, listMean,
      lstsqSlope, median, sortQ, insQ, bin_age, bin_experience]
    norm_num

lemma mem_insertRow {x a : Row} {s : List Row} :
    x ∈ insertRow a s ↔ x = a ∨ x ∈ s := by
  induction s with
  | nil => simp [insertRow]
  | cons b t ih =>
    by_cases h : a.week ≤ b.week
    · simp [insertRow, h]
    · simp [insertRow, h, ih]
      tauto

lemma sorted_insertRow {s : List Row} (a : Row)
    (h : List.Sorted (fun p q : Row => p.week ≤ q.week) s) :
    List.Sorted (fun p q : Row => p.week ≤ q.week) (insertRow a s) := by
  induction s with
  | nil => simp [insertRow]
  | cons b t ih =>
    rw [List.sorted_cons] at h
    by_cases hab : a.week ≤ b.week
    · rw [insertRow, if_pos hab]
      refine List.sorted_cons.mpr ⟨?_, List.sorted_cons.mpr h⟩
      intro x hx
      rcases List.mem_cons.mp hx with rfl | hx
      · exact hab
      · exact le_trans hab (h.1 x hx)
    · rw [insertRow, if_neg hab]
      refine List.sorted_cons.mpr ⟨?_, ih h.2⟩
      intro x hx
      rcases mem_insertRow.mp hx with rfl | hx
      · exact le_of_lt (lt_of_not_le hab)
      · exact h.1 x hx

lemma sorted_sortByWeek (l : List Row) :
    List.Sorted (fun p q : Row => p.week ≤ q.week) (sortByWeek l) := by
  induction l with
  | nil => simp [sortByWeek]
  | cons a l ih => exact sorted_insertRow a ih

lemma insertRow_appendSorted (a r : Row) (s : List Row) :
    insertRow a (appendSorted r s) = appendSorted r (insertRow a s) := by
  induction s with
  | nil =>
    by_cases h : a.week ≤ r.week <;> simp [insertRow, appendSorted, h]
  | cons b t ih =>
    by_cases hbr : b.week ≤ r.week <;> by_cases hab : a.week ≤ b.week
    · simp [appendSorted, insertRow, hbr, hab, le_trans hab hbr]
    · simp [appendSorted, insertRow, hbr, hab, ih]
    · by_cases har : a.week ≤ r.week <;>
        simp [appendSorted, insertRow, hbr, hab, har]
    · have hra : ¬ a.week ≤ r.week :=
        not_le.mpr (lt_trans (lt_of_not_le hbr) (lt_of_not_le hab))
      simp [appendSorted, insertRow, hbr, hab, hra]

lemma sortByWeek_append (l : List Row) (r : Row) :
    sortByWeek (l ++ [r]) = appendSorted r (sortByWeek l) := by
  induction l with
  | nil => simp [sortByWeek, appendSorted, insertRow]
  | cons a l ih => simp [sortByWeek, ih, insertRow_appendSorted]

lemma filter_appendSorted {r : Row} {u : Int} (hu : ¬ r.week = u) (s : List Row) :
    (appendSorted r s).filter (fun x => x.week == u) =
      s.filter (fun x => x.week == u) := by
  induction s with
  | nil => simp [appendSorted, hu]
  | cons b t ih =>
    by_cases hbr : b.week ≤ r.week
    · rw [appendSorted, if_pos hbr]
      by_cases hb : b.week = u <;> simp [hb, ih]
    · rw [appendSorted, if_neg hbr]
      simp [hu]

lemma athleteData_append {df : TrainingFrame} {aid : String} {r : Row}
    (hr : r.athlete_id = aid) (b : Bool) :
    athleteData ⟨df.rows ++ [r], b⟩ aid = appendSorted r (athleteData df aid) := by
  unfold athleteData
  rw [List.filter_append, show (List.filter (fun x => x.athlete_id == aid) [r]) = [r] by
    simp [hr], sortByWeek_append]

lemma firstIdx_get {w : Int} {s : List Row} {i : Nat}
    (h : firstIdx w s = some i) :
    ∃ x, s.get? i = some x ∧ x.week = w := by
  induction s generalizing i with
  | nil => simp [firstIdx] at h
  | cons b t ih =>
    by_cases hb : b.week = w
    · rw [firstIdx, if_pos hb] at h
      cases h
      exact ⟨b, rfl, hb⟩
    · rw [firstIdx, if_neg hb] at h
      rcases Option.map_eq_some'.mp h with ⟨j, hj, rfl⟩
      rcases ih hj with ⟨x, hx, hxw⟩
      exact ⟨x, hx, hxw⟩

lemma firstIdx_lt_length {w : Int} {s : List Row} {i : Nat}
    (h : firstIdx w s = some i) : i < s.length := by
  rcases firstIdx_get h with ⟨x, hx, _⟩
  by_contra hle
  rw [List.get?_eq_none.mpr (le_of_not_lt hle)] at hx
  cases hx

lemma firstIdx_none_of_not_mem {w : Int} {s : List Row}
    (h : ∀ x ∈ s, ¬ x.week = w) : firstIdx w s = none := by
  induction s with
  | nil => rfl
  | cons b t ih =>
    rw [firstIdx, if_neg (h b (List.mem_cons_self b t)),
      ih (fun x hx => h x (List.mem_cons_of_mem b hx))]
    rfl

lemma firstIdx_appendSorted {w : Int} {r : Row} {s : List Row}
    (hs : List.Sorted (fun p q : Row => p.week ≤ q.week) s) (hw : w < r.week) :
    firstIdx w (appendSorted r s) = firstIdx w s := by
  induction s with
  | nil =>
    simp [appendSorted, firstIdx, ne_of_gt hw]
  | cons b t ih =>
    rw [List.sorted_cons] at hs
    by_cases hbr : b.week ≤ r.week
    · rw [appendSorted, if_pos hbr]
      by_cases hb : b.week = w
      · rw [firstIdx, if_pos hb, firstIdx, if_pos hb]
      · rw [firstIdx, if_neg hb, firstIdx, if_neg hb, ih hs.2]
    · rw [appendSorted, if_neg hbr]
      have hwb : w < b.week := lt_trans hw (lt_of_not_le hbr)
      have hnone : firstIdx w (b :: t) = none := by
        refine firstIdx_none_of_not_mem (fun x hx => ?_)
        rcases List.mem_cons.mp hx with rfl | hx
        · exact ne_of_gt hwb
        · exact ne_of_gt (lt_of_lt_of_le hwb (hs.1 x hx))
      rw [hnone, firstIdx, if_neg (ne_of_gt hw), hnone]
      rfl

lemma take_appendSorted {r : Row} : ∀ {s : List Row} {n : Nat},
    n ≤ s.length → (∀ x ∈ s.take n, x.week ≤ r.week) →
    (appendSorted r s).take n = s.take n := by
  intro s
  induction s with
  | nil =>
    intro n hn _
    have h0 : n = 0 := Nat.le_zero.mp (by simpa using hn)
    subst h0
    simp
  | cons b t ih =>
    intro n hn hmem
    match n with
    | 0 => simp
    | m + 1 =>
      have hb : b.week ≤ r.week := hmem b (by simp)
      rw [appendSorted, if_pos hb, List.take_succ_cons, List.take_succ_cons,
        ih (Nat.le_of_succ_le_succ hn)
          (fun x hx => hmem x (by simp [hx]))]

lemma take_le_of_firstIdx {w : Int} : ∀ {s : List Row} {i : Nat},
    List.Sorted (fun p q : Row => p.week ≤ q.week) s →
    firstIdx w s = some i → ∀ x ∈ s.take (i + 1), x.week ≤ w := by
  intro s
  induction s with
  | nil => intro i _ h; simp [firstIdx] at h
  | cons b t ih =>
    intro i hs h x hx
    rw [List.sorted_cons] at hs
    by_cases hb : b.week = w
    · rw [firstIdx, if_pos hb] at h
      cases h
      rw [List.take_succ_cons, List.take_zero] at hx
      rcases List.mem_cons.mp hx with rfl | hx
      · exact le_of_eq hb
      · cases hx
    · rw [firstIdx, if_neg hb] at h
      rcases Option.map_eq_some'.mp h with ⟨j, hj, rfl⟩
      rw [List.take_succ_cons] at hx
      rcases List.mem_cons.mp hx with rfl | hx
      · rcases firstIdx_get hj with ⟨y, hy, hyw⟩
        have : y ∈ t := List.get?_mem hy
        exact le_trans (hs.1 y this) (le_of_eq hyw)
      · exact ih hs.2 hj x hx

lemma take_eq_of_firstIdx {w : Int} {r : Row} {s : List Row} {i : Nat}
    (hs : List.Sorted (fun p q : Row => p.week ≤ q.week) s)
    (hi : firstIdx w s = some i) (hw : w < r.week) :
    (appendSorted r s).take (i + 1) = s.take (i + 1) := by
  refine take_appendSorted (Nat.succ_le_of_lt (firstIdx_lt_length hi))
    (fun x hx => ?_)
  exact le_of_lt (lt_of_le_of_lt (take_le_of_firstIdx hs hi x hx) hw)

lemma get?_of_take_eq {α : Type} (u v : List α) (n i : Nat) (hin : i < n)
    (h : u.take n = v.take n) : u.get? i = v.get? i :=
  calc u.get? i = (u.take n).get? i := (List.get?_take hin).symm
  _ = (v.take n).get? i := by rw [h]
  _ = v.get? i := List.get?_take hin

lemma take_pred_eq_of_firstIdx {w : Int} {r : Row} {s : List Row} {i : Nat}
    (hs : List.Sorted (fun p q : Row => p.week ≤ q.week) s)
    (hi : firstIdx w s = some i) (hw : w < r.week) :
    (appendSorted r s).take i = s.take i := by
  have h1 := take_eq_of_firstIdx hs hi hw
  have h2 := congrArg (List.take i) h1
  simpa [List.take_take, Nat.min_eq_left (Nat.le_succ i)] using h2

lemma acute_causal {df : TrainingFrame} {aid : String} {r : Row} {u : Int}
    (hr : r.athlete_id = aid) (hw : u < r.week) :
    calculate_acute_load ⟨df.rows ++ [r], df.hasInjured⟩ aid u =
      calculate_acute_load df aid u := by
  unfold calculate_acute_load
  rw [athleteData_append hr, filter_appendSorted (ne_of_gt hw)]

lemma chronic_causal {df : TrainingFrame} {aid : String} {r : Row} {u : Int}
    (hr : r.athlete_id = aid) (hw : u < r.week) :
    calculate_chronic_load ⟨df.rows ++ [r], df.hasInjured⟩ aid u =
      calculate_chronic_load df aid u := by
  have hs : List.Sorted (fun p q : Row => p.week ≤ q.week) (athleteData df aid) :=
    sorted_sortByWeek _
  unfold calculate_chronic_load
  simp only [athleteData_append hr, firstIdx_appendSorted hs hw]
  cases hidx : firstIdx u (athleteData df aid) with
  | none => rfl
  | some i =>
    simp only [slice]
    rw [take_eq_of_firstIdx hs hidx hw]

lemma acwr_causal {df : TrainingFrame} {aid : String} {r : Row} {u : Int}
    (hr : r.athlete_id = aid) (hw : u < r.week) :
    calculate_acwr ⟨df.rows ++ [r], df.hasInjured⟩ aid u =
      calculate_acwr df aid u := by
  unfold calculate_acwr
  rw [acute_causal hr hw, chronic_causal hr hw]

lemma monotonyWindow_causal {df : TrainingFrame} {aid : String} {r : Row} {u : Int}
    (hr : r.athlete_id = aid) (hw : u < r.week) :
    monotonyWindow ⟨df.rows ++ [r], df.hasInjured⟩ aid u =
      monotonyWindow df aid u := by
  have hs : List.Sorted (fun p q : Row => p.week ≤ q.week) (athleteData df aid) :=
    sorted_sortByWeek _
  unfold monotonyWindow
  simp only [athleteData_append hr, firstIdx_appendSorted hs hw]
  cases hidx : firstIdx u (athleteData df aid) with
  | none => rfl
  | some i =>
    simp only [slice]
    rw [take_eq_of_firstIdx hs hidx hw]

lemma monotony_causal (sqrtQ : ℚ → ℚ) {df : TrainingFrame} {aid : String}
    {r : Row} {u : Int} (hr : r.athlete_id = aid) (hw : u < r.week) :
    calculate_monotony sqrtQ ⟨df.rows ++ [r], df.hasInjured⟩ aid u =
      calculate_monotony sqrtQ df aid u := by
  unfold calculate_monotony
  rw [monotonyWindow_causal hr hw]

lemma strain_causal (sqrtQ : ℚ → ℚ) {df : TrainingFrame} {aid : String}
    {r : Row} {u : Int} (hr : r.athlete_id = aid) (hw : u < r.week) :
    calculate_strain sqrtQ ⟨df.rows ++ [r], df.hasInjured⟩ aid u =
      calculate_strain sqrtQ df aid u := by
  unfold calculate_strain
  rw [athleteData_append hr, filter_appendSorted (ne_of_gt hw)]
  cases hf : (athleteData df aid).filter (fun x => x.week == u) with
  | nil => rfl
  | cons a l =>
    simp only []
    rw [monotony_causal sqrtQ hr hw]

lemma wow_causal {df : TrainingFrame} {aid : String} {r : Row} {u : Int}
    (hr : r.athlete_id = aid) (hw : u < r.week) :
    calculate_week_over_week_change ⟨df.rows ++ [r], df.hasInjured⟩ aid u =
      calculate_week_over_week_change df aid u := by
  have hw1 : u - 1 < r.week := lt_trans (by linarith) hw
  unfold calculate_week_over_week_change
  simp only [athleteData_append hr, filter_appendSorted (ne_of_gt hw),
    filter_appendSorted (ne_of_gt hw1)]

lemma trend_causal {df : TrainingFrame} {aid : String} {r : Row} {u : Int}
    (hr : r.athlete_id = aid) (hw : u < r.week) :
    calculate_acwr_trend ⟨df.rows ++ [r], df.hasInjured⟩ aid u =
      calculate_acwr_trend df aid u := by
  have hs : List.Sorted (fun p q : Row => p.week ≤ q.week) (athleteData df aid) :=
    sorted_sortByWeek _
  unfold calculate_acwr_trend
  simp only [athleteData_append hr, firstIdx_appendSorted hs hw]
  cases hidx : firstIdx u (athleteData df aid) with
  | none => rfl
  | some i =>
    simp only [slice]
    rw [take_eq_of_firstIdx hs hidx hw]
    have hmap : ∀ x ∈ ((athleteData df aid).take (i + 1)).drop (i + 1 - 2),
        calculate_acwr ⟨df.rows ++ [r], df.hasInjured⟩ aid x.week =
          calculate_acwr df aid x.week := by
      intro x hx
      have hxw : x.week ≤ u :=
        take_le_of_firstIdx hs hidx x (List.mem_of_mem_drop hx)
      exact acwr_causal hr (lt_of_le_of_lt hxw hw)
    rw [List.map_congr_left hmap]

lemma watCond_causal {df : TrainingFrame} {aid : String} {r : Row} {u : Int}
    {i : Nat} {thr : ℚ}
    (hr : r.athlete_id = aid) (hw : u < r.week)
    (hs : List.Sorted (fun p q : Row => p.week ≤ q.week) (athleteData df aid))
    (hidx : firstIdx u (athleteData df aid) = some i) :
    ∀ j ≤ i, watCond ⟨df.rows ++ [r], df.hasInjured⟩ aid thr
        (appendSorted r (athleteData df aid)) j =
      watCond df aid thr (athleteData df aid) j := by
  intro j hj
  have hget : (appendSorted r (athleteData df aid)).get? j =
      (athleteData df aid).get? j :=
    get?_of_take_eq _ _ (i + 1) j (Nat.lt_succ_of_le hj)
      (take_eq_of_firstIdx hs hidx hw)
  unfold watCond
  rw [hget]
  cases hg : (athleteData df aid).get? j with
  | none => rfl
  | some x =>
    have hmem : x ∈ (athleteData df aid).take (i + 1) := by
      have : ((athleteData df aid).take (i + 1)).get? j = some x := by
        rw [List.get?_take (Nat.lt_succ_of_le hj), hg]
      exact List.get?_mem this
    have hxw : x.week ≤ u := take_le_of_firstIdx hs hidx x hmem
    simp only []
    rw [acwr_causal hr (lt_of_le_of_lt hxw hw)]

lemma countFrom_congr {df₁ df₂ : TrainingFrame} {aid : String} {thr : ℚ}
    {s₁ s₂ : List Row} : ∀ {i : Nat},
    (∀ j ≤ i, watCond df₁ aid thr s₁ j = watCond df₂ aid thr s₂ j) →
    countFrom df₁ aid thr s₁ i = countFrom df₂ aid thr s₂ i := by
  intro i
  induction i with
  | zero =>
    intro hc
    unfold countFrom
    rw [hc 0 le_rfl]
  | succ j ih =>
    intro hc
    unfold countFrom
    rw [hc (j + 1) le_rfl, ih (fun k hk => hc k (Nat.le_succ_of_le hk))]

lemma wat_causal {df : TrainingFrame} {aid : String} {r : Row} {u : Int}
    (hr : r.athlete_id = aid) (hw : u < r.week) :
    calculate_weeks_above_threshold ⟨df.rows ++ [r], df.hasInjured⟩ aid u =
      calculate_weeks_above_threshold df aid u := by
  have hs : List.Sorted (fun p q : Row => p.week ≤ q.week) (athleteData df aid) :=
    sorted_sortByWeek _
  unfold calculate_weeks_above_threshold
  simp only [athleteData_append hr, firstIdx_appendSorted hs hw]
  cases hidx : firstIdx u (athleteData df aid) with
  | none => rfl
  | some i =>
    simp only []
    exact countFrom_congr (watCond_causal hr hw hs hidx)

lemma distance_causal {df : TrainingFrame} {aid : String} {r : Row} {u : Int}
    (hr : r.athlete_id = aid) (hw : u < r.week) :
    calculate_distance_from_baseline ⟨df.rows ++ [r], df.hasInjured⟩ aid u =
      calculate_distance_from_baseline df aid u := by
  have hs : List.Sorted (fun p q : Row => p.week ≤ q.week) (athleteData df aid) :=
    sorted_sortByWeek _
  unfold calculate_distance_from_baseline
  simp only [athleteData_append hr, filter_appendSorted (ne_of_gt hw),
    firstIdx_appendSorted hs hw]
  cases hf : (athleteData df aid).filter (fun x => x.week == u) with
  | nil => rfl
  | cons a l =>
    simp only []
    cases hidx : firstIdx u (athleteData df aid) with
    | none => rfl
    | some i =>
      simp only [slice]
      rw [take_pred_eq_of_firstIdx hs hidx hw]

lemma lag_causal {df : TrainingFrame} {aid : String} {r : Row} {u : Int}
    (hr : r.athlete_id = aid) (hw : u < r.week) (k : Int) (hk : 0 ≤ k) :
    calculate_lag_features ⟨df.rows ++ [r], df.hasInjured⟩ aid u k =
      calculate_lag_features df aid u k := by
  unfold calculate_lag_features
  by_cases hlag : u - k < 1
  · rw [if_pos hlag, if_pos hlag]
  · rw [if_neg hlag, if_neg hlag,
      acwr_causal hr (lt_of_le_of_lt (by linarith : u - k ≤ u) hw)]

lemma recent_causal {df : TrainingFrame} {aid : String} {r : Row} {u : Int}
    (hr : r.athlete_id = aid) (hw : u < r.week) :
    calculate_recent_injury ⟨df.rows ++ [r], df.hasInjured⟩ aid u =
      calculate_recent_injury df aid u := by
  have hs : List.Sorted (fun p q : Row => p.week ≤ q.week) (athleteData df aid) :=
    sorted_sortByWeek _
  unfold calculate_recent_injury
  simp only [athleteData_append hr, firstIdx_appendSorted hs hw]
  cases hidx : firstIdx u (athleteData df aid) with
  | none => rfl
  | some i =>
    simp only [slice, take_pred_eq_of_firstIdx hs hidx hw]

/-- C4: causality of the metric library — appending a record with a week
strictly beyond the target week `w` to an athlete's timeline leaves every
metric at `w` unchanged: acute load, chronic load, ACWR, monotony (for any
square root), strain, week-over-week change, ACWR trend, weeks above
threshold, distance from baseline, lag (any nonnegative lag, covering
`previous_week_acwr` and `two_weeks_ago_acwr`), and recent injury. -/
theorem C4_metric_causality (sqrtQ : ℚ → ℚ) (df : TrainingFrame) (aid : String)
    (w : Int) (r : Row) (hr : r.athlete_id = aid) (hw : w < r.week) :
    calculate_acute_load ⟨df.rows ++ [r], df.hasInjured⟩ aid w =
        calculate_acute_load df aid w ∧
    calculate_chronic_load ⟨df.rows ++ [r], df.hasInjured⟩ aid w =
        calculate_chronic_load df aid w ∧
    calculate_acwr ⟨df.rows ++ [r], df.hasInjured⟩ aid w =
        calculate_acwr df aid w ∧
    calculate_monotony sqrtQ ⟨df.rows ++ [r], df.hasInjured⟩ aid w =
        calculate_monotony sqrtQ df aid w ∧
    calculate_strain sqrtQ ⟨df.rows ++ [r], df.hasInjured⟩ aid w =
        calculate_strain sqrtQ df aid w ∧
    calculate_week_over_week_change ⟨df.rows ++ [r], df.hasInjured⟩ aid w =
        calculate_week_over_week_change df aid w ∧
    calculate_acwr_trend ⟨df.rows ++ [r], df.hasInjured⟩ aid w =
        calculate_acwr_trend df aid w ∧
    calculate_weeks_above_threshold ⟨df.rows ++ [r], df.hasInjured⟩ aid w =
        calculate_weeks_above_threshold df aid w ∧
    calculate_distance_from_baseline ⟨df.rows ++ [r], df.hasInjured⟩ aid w =
        calculate_distance_from_baseline df aid w ∧
    (∀ k : Int, 0 ≤ k →
      calculate_lag_features ⟨df.rows ++ [r], df.hasInjured⟩ aid w k =
        calculate_lag_features df aid w k) ∧
    calculate_recent_injury ⟨df.rows ++ [r], df.hasInjured⟩ aid w =
        calculate_recent_injury df aid w :=
  ⟨acute_causal hr hw, chronic_causal hr hw, acwr_causal hr hw,
   monotony_causal sqrtQ hr hw, strain_causal sqrtQ hr hw, wow_causal hr hw,
   trend_causal hr hw, wat_causal hr hw, distance_causal hr hw,
   fun k hk => lag_causal hr hw k hk, recent_causal hr hw⟩

/-- C4 witness: ACWR and chronic load at week 1 are unchanged by appending a
week-2 record. -/
theorem C4_metric_causality_witness :
    calculate_acwr ⟨[⟨"A", 1, 10, false⟩] ++ [⟨"A", 2, 20, false⟩], true⟩ "A" 1 =
        calculate_acwr ⟨[⟨"A", 1, 10, false⟩], true⟩ "A" 1 ∧
    calculate_chronic_load ⟨[⟨"A", 1, 10, false⟩] ++ [⟨"A", 2, 20, false⟩], true⟩ "A" 1 =
        calculate_chronic_load ⟨[⟨"A", 1, 10, false⟩], true⟩ "A" 1 :=
  have h := C4_metric_causality id ⟨[⟨"A", 1, 10, false⟩], true⟩ "A" 1
    ⟨"A", 2, 20, false⟩ rfl (by norm_num)
  ⟨h.2.2.1, h.2.1⟩

end InjuryRisk
